import Mathlib

/-!
Verification of `scripts/generate_set_files.py`: a shallow embedding of the
script's functions (`is_supported`, `make_atom`, `parse_yaml_file`, `main`)
and proofs of the specified properties.
-/

namespace GenSetFiles

/-- A package entry: models the YAML attribute dictionary attached to a package
name, restricted to the four keys the script consults (`version`, `overlay`,
`exclude_on`, `include_on`).  An absent key is `none`. -/
structure Entry where
  version : Option String
  overlay : Option String
  exclude_on : Option (List String)
  include_on : Option (List String)
deriving DecidableEq

/-- The entry carrying no attributes at all (an empty dictionary). -/
def Entry.empty : Entry := ⟨none, none, none, none⟩

/-- Embeds the return value of `is_supported(package, arch)`:
`package is None or not arch in package.get('exclude_on', []) and
arch in package.get('include_on', [arch])`.  A `None` entry is `none`;
`dict.get(key, default)` is `Option.getD`.  The function's debug print is
modeled separately by `isSupportedRun`. -/
def isSupported (package : Option Entry) (arch : String) : Bool :=
  match package with
  | none => true
  | some p =>
      !((p.exclude_on.getD []).contains arch)
        && ((p.include_on.getD [arch]).contains arch)

/-- Renders an entry roughly as Python's `print` shows the attribute dict
(`None` for an absent entry); the exact repr punctuation (quoting) is
abbreviated, which no claim depends on. -/
def pyShowEntry : Option Entry → String
  | none => "None"
  | some p =>
      let fs : List String :=
        (match p.version with | some v => ["version: " ++ v] | none => []) ++
        (match p.overlay with | some o => ["overlay: " ++ o] | none => []) ++
        (match p.exclude_on with
          | some l => ["exclude_on: [" ++ String.intercalate ", " l ++ "]"]
          | none => []) ++
        (match p.include_on with
          | some l => ["include_on: [" ++ String.intercalate ", " l ++ "]"]
          | none => [])
      "\x7b" ++ String.intercalate ", " fs ++ "\x7d"

/-- The single line `print(package, arch)` emits on each call. -/
def printLine (package : Option Entry) (arch : String) : String :=
  pyShowEntry package ++ " " ++ arch

/-- Embeds `is_supported` together with its side effect: `out` is the stream
of lines already printed; the call appends one line (`print(package, arch)`)
and then evaluates the boolean return expression. -/
def isSupportedRun (package : Option Entry) (arch : String) (out : List String) :
    Bool × List String :=
  let out := out ++ [printLine package arch]
  (match package with
   | none => true
   | some p =>
       !((p.exclude_on.getD []).contains arch)
         && ((p.include_on.getD [arch]).contains arch), out)

/-- Embeds `make_atom(package_name, package_dict)` for entries whose `version`
and `overlay` values are strings (`str(...)` is the identity on strings; the
general scalar case is `makeAtomY` below).  A falsy entry (`None` or empty
dict) is replaced by the empty dict before the key tests. -/
def makeAtom (package_name : String) (package_dict : Option Entry) : String :=
  let d := package_dict.getD Entry.empty
  let atom := package_name
  let atom := match d.version with
    | some v => "=" ++ atom ++ "-" ++ v
    | none => atom
  let atom := match d.overlay with
    | some o => atom ++ "::" ++ o
    | none => atom
  atom ++ "\n"

/-- A YAML scalar as Python sees it after `yaml.safe_load`.  A float is
carried by its Python `str` rendering (the script never computes with it,
it only stringifies it). -/
inductive YVal where
  | vstr (s : String)
  | vint (n : Int)
  | vfloat (r : String)
  | vbool (b : Bool)
deriving DecidableEq

/-- Python's `str` on a YAML scalar. -/
def pyStr : YVal → String
  | .vstr s => s
  | .vint n => toString n
  | .vfloat r => r
  | .vbool b => if b then "True" else "False"

/-- The two entry fields `make_atom` reads, with scalar-typed values (the
other fields of the dict are not consulted by `make_atom`). -/
structure EntryY where
  version : Option YVal
  overlay : Option YVal
deriving DecidableEq

/-- Embeds `make_atom` on scalar-typed values.  `str(package_dict['version'])`
stringifies any scalar, so the version branch is total; the overlay branch is
plain string concatenation `atom += '::' + package_dict['overlay']`, which
raises a `TypeError` when the overlay value is not a string. -/
def makeAtomY (package_name : String) (package_dict : Option EntryY) :
    Except String String :=
  let d := package_dict.getD ⟨none, none⟩
  let atom := package_name
  let atom := match d.version with
    | some v => "=" ++ atom ++ "-" ++ pyStr v
    | none => atom
  match d.overlay with
  | none => .ok (atom ++ "\n")
  | some (.vstr o) => .ok (atom ++ "::" ++ o ++ "\n")
  | some _ => .error "TypeError: can only concatenate str"

/-- Outcome of `parse_yaml_file`: either a single formatted error line via
`error()` (stderr message then `sys.exit(1)`), or an exception that escapes
the `except yaml.YAMLError` clause (a `KeyError` from a missing top-level
key, terminating with a traceback), or the returned pair. -/
inductive ParseOutcome where
  | formattedError (msg : String)
  | uncaughtKeyError (key : String)
  | parsed (archs : List String) (sets : List (String × List (String × Option Entry)))
deriving DecidableEq

/-- Result of `yaml.safe_load`: a parser failure carrying its diagnostic, or
a document.  The document is modeled as the top-level mapping restricted to
the two keys the script subscripts, an absent key being `none`; the values
are already in their parsed shape (the script performs no validation on
them). -/
structure YamlDoc where
  eessiArchs : Option (List String)
  eessiSets : Option (List (String × List (String × Option Entry)))

/-- Embeds `parse_yaml_file(filename)`.  `fileExists` models
`os.path.exists(filename)` and `load` the result of `yaml.safe_load` on the
file's content.  The `try` block assigns `y['eessi_archs']` then
`y['eessi_sets']`, but the `except` clause catches only `yaml.YAMLError`, so
a `KeyError` from either subscript propagates uncaught. -/
def parseYamlFile (filename : String) (fileExists : Bool)
    (load : Except String YamlDoc) : ParseOutcome :=
  if fileExists = false then
    .formattedError ("input file " ++ filename ++ " does not exist!")
  else
    match load with
    | .error diag => .formattedError ("YAML file could not be parsed.\n" ++ diag)
    | .ok y =>
        match y.eessiArchs with
        | none => .uncaughtKeyError "eessi_archs"
        | some archs =>
            match y.eessiSets with
            | none => .uncaughtKeyError "eessi_sets"
            | some sets => .parsed archs sets

/-- A set definition: models the mapping under a set name, restricted to the
one key `main` reads (`set['packages']`, an ordered mapping of package name
to entry). -/
structure SetDef where
  packages : List (String × Option Entry)
deriving DecidableEq

/-- The error `main` can raise after parsing succeeded. -/
inductive GenError where
  | outputDirNotFound
deriving DecidableEq

/-- The body of `main`'s inner loop for one (set, arch) pair: the list
comprehension `[make_atom(n, d) for n, d in set['packages'].items() if
is_supported(d, arch)]` followed by `writelines`, i.e. the concatenation of
the formatted atoms of the supported packages in declaration order. -/
def setFileContents (pkgs : List (String × Option Entry)) (arch : String) : String :=
  String.join ((pkgs.filter fun p => isSupported p.2 arch).map fun p => makeAtom p.1 p.2)

/-- The inner `for arch in archs` loop for one set: one write per
architecture, in order.  A write is (file name, file content); the file name
`f"\x7bset_name\x7d-\x7barch\x7d"` is relative to the output directory. -/
def archLoop (setName : String) (pkgs : List (String × Option Entry)) :
    List String → List (String × String)
  | [] => []
  | arch :: rest =>
      (setName ++ "-" ++ arch, setFileContents pkgs arch) :: archLoop setName pkgs rest

/-- The outer `for set_name, set in sets.items()` loop: the writes of all
sets, in order. -/
def setsLoop (archs : List String) : List (String × SetDef) → List (String × String)
  | [] => []
  | (name, sd) :: rest => archLoop name sd.packages archs ++ setsLoop archs rest

/-- Result of a run of `main` after parsing: the sequence of file writes
performed, and the fatal error if one occurred. -/
structure RunResult where
  writes : List (String × String)
  err : Option GenError
deriving DecidableEq

/-- Embeds `main` after `parse_yaml_file` returned `(archs, sets)`:
`os.path.exists(args.setsdir)` is `outDirExists`; when it fails, `error()`
terminates before the loop runs, so no write is performed; otherwise the
nested loop performs all writes in order and no error occurs. -/
def mainRun (outDirExists : Bool) (archs : List String)
    (sets : List (String × SetDef)) : RunResult :=
  if outDirExists = false then ⟨[], some .outputDirNotFound⟩
  else ⟨setsLoop archs sets, none⟩

/-- A file system, mapping a file name (relative to the output directory) to
its content when the file exists. -/
def FileSys : Type := String → Option String

/-- `open(name, 'w')` followed by `writelines`: creates or truncates the
file, leaving it with exactly the written content. -/
def applyWrite (fs : FileSys) (w : String × String) : FileSys :=
  fun name => if name = w.1 then some w.2 else fs name

/-- Performs a run's writes in sequence. -/
def applyWrites (fs : FileSys) (ws : List (String × String)) : FileSys :=
  ws.foldl applyWrite fs

/-- The content the last write to `name` in `ws` leaves, if any. -/
def lastVal (ws : List (String × String)) (name : String) : Option String :=
  match ws with
  | [] => none
  | w :: rest =>
      match lastVal rest name with
      | some c => some c
      | none => if name = w.1 then some w.2 else none

/-! Helper lemmas shared by the claim theorems. -/

theorem filter_map_eq_filterMap {α β : Type} (q : α → Bool) (f : α → β) (l : List α) :
    (l.filter q).map f = l.filterMap fun a => if q a then some (f a) else none := by
  induction l with
  | nil => rfl
  | cons x xs ih =>
      by_cases h : q x = true <;> simp [List.filter_cons, h, ih]

theorem archLoop_eq_map (setName : String) (pkgs : List (String × Option Entry))
    (archs : List String) :
    archLoop setName pkgs archs =
      archs.map fun a => (setName ++ "-" ++ a, setFileContents pkgs a) := by
  induction archs with
  | nil => rfl
  | cons a rest ih => simp [archLoop, ih]

theorem setsLoop_eq_flatten (archs : List String) (sets : List (String × SetDef)) :
    setsLoop archs sets =
      (sets.map fun s => archLoop s.1 s.2.packages archs).flatten := by
  induction sets with
  | nil => rfl
  | cons s rest ih => simp [setsLoop, ih]

theorem applyWrites_lookup (ws : List (String × String)) (fs : FileSys) (name : String) :
    applyWrites fs ws name =
      match lastVal ws name with
      | some c => some c
      | none => fs name := by
  induction ws generalizing fs with
  | nil => rfl
  | cons w rest ih =>
      show applyWrites (applyWrite fs w) rest name = _
      rw [ih]
      cases h : lastVal rest name with
      | some c => simp [lastVal, h]
      | none =>
          simp only [lastVal, h, applyWrite]
          by_cases hn : name = w.1 <;> simp [hn]

theorem applyWrites_applyWrites (fs : FileSys) (ws : List (String × String)) :
    applyWrites (applyWrites fs ws) ws = applyWrites fs ws := by
  funext name
  rw [applyWrites_lookup ws (applyWrites fs ws) name]
  cases h : lastVal ws name with
  | some c => rw [applyWrites_lookup ws fs name, h]
  | none => rfl

/-! The claim theorems. -/

/-- C1: `is_supported(entry, arch)` returns true iff the entry is absent
(`None`), or `arch` is not in the entry's `exclude_on` list (default `[]`)
and `arch` is in the entry's `include_on` list (default `[arch]`); in
particular an entry with neither `exclude_on` nor `include_on` is supported
on every architecture string. -/
theorem isSupported_characterization :
    ∀ (p : Option Entry) (a : String),
      (isSupported p a = true ↔
        p = none ∨ ∃ e, p = some e ∧
          a ∉ e.exclude_on.getD [] ∧ a ∈ e.include_on.getD [a]) ∧
      (∀ v o : Option String, isSupported (some ⟨v, o, none, none⟩) a = true) := by
  intro p a
  constructor
  · cases p with
    | none => simp [isSupported]
    | some e => simp [isSupported]
  · intro v o
    simp [isSupported]

/-- C2: exclusion takes precedence over inclusion: for every non-absent
entry, an architecture listed in `exclude_on` is unsupported even if it is
also listed in `include_on`. -/
theorem isSupported_exclude_wins :
    ∀ (e : Entry) (a : String), a ∈ e.exclude_on.getD [] →
      isSupported (some e) a = false := by
  intro e a h
  simp [isSupported, h]

/-- Witness for C2 at the conflicting entry
`exclude_on = ["x86_64"], include_on = ["x86_64"]`. -/
theorem isSupported_exclude_wins_witness :
    "x86_64" ∈ (Entry.mk none none (some ["x86_64"]) (some ["x86_64"])).exclude_on.getD []
      ∧ isSupported
          (some (Entry.mk none none (some ["x86_64"]) (some ["x86_64"]))) "x86_64" = false :=
  ⟨by simp, isSupported_exclude_wins _ _ (by simp)⟩

/-- C3: `make_atom` returns one newline-terminated line built from the
package name; a present `version` turns the atom into `=<name>-<version>`,
a present `overlay` appends `::<overlay>` afterwards, and an absent or empty
entry leaves the bare name; in particular
`make_atom("foo", \x7b"version": "1.2.3", "overlay": "science"\x7d)`
is `"=foo-1.2.3::science\n"`. -/
theorem makeAtom_spec :
    ∀ (name ver ov : String) (eo io : Option (List String)),
      makeAtom name none = name ++ "\n" ∧
      makeAtom name (some ⟨none, none, eo, io⟩) = name ++ "\n" ∧
      makeAtom name (some ⟨some ver, none, eo, io⟩) = "=" ++ name ++ "-" ++ ver ++ "\n" ∧
      makeAtom name (some ⟨none, some ov, eo, io⟩) = name ++ "::" ++ ov ++ "\n" ∧
      makeAtom name (some ⟨some ver, some ov, eo, io⟩) =
        "=" ++ name ++ "-" ++ ver ++ "::" ++ ov ++ "\n" ∧
      makeAtom "foo" (some ⟨some "1.2.3", some "science", none, none⟩) =
        "=foo-1.2.3::science\n" := by
  intro name ver ov eo io
  exact ⟨rfl, rfl, rfl, rfl, rfl, rfl⟩

/-- C5 is falsified at a concrete input: `is_supported` is not free of
observable output, since `print(package, arch)` emits a line even for the
absent entry. -/
theorem isSupportedRun_prints :
    ¬ (isSupportedRun none "x86_64" []).2 = [] := by
  simp [isSupportedRun]

/-- C5 amended: the return value of `is_supported` is a pure function of its
two inputs (it is independent of the state of the output stream, and equal
calls return equal results), but each call has exactly one side effect:
printing the line `print(package, arch)` to standard output. -/
theorem isSupportedRun_pure_value_one_print :
    ∀ (p : Option Entry) (a : String) (out1 out2 : List String),
      (isSupportedRun p a out1).1 = (isSupportedRun p a out2).1 ∧
      (isSupportedRun p a out1).1 = isSupported p a ∧
      (isSupportedRun p a out1).2 = out1 ++ [printLine p a] := by
  intro p a out1 out2
  cases p <;> exact ⟨rfl, rfl, rfl⟩

/-- C4 is falsified at a concrete input: a well-formed document that lacks
the required top-level keys makes `parse_yaml_file` raise an uncaught
`KeyError`, not the single formatted parse error. -/
theorem parseYamlFile_missing_key_not_formatted :
    ¬ ∃ msg, parseYamlFile "input.yml" true (.ok ⟨none, none⟩) = .formattedError msg := by
  intro h
  obtain ⟨msg, h⟩ := h
  simp [parseYamlFile] at h

/-- C4 amended: the loader produces the formatted parse error (underlying
parser diagnostic included, then non-zero termination) only when the YAML is
malformed; when the document parses but lacks `eessi_archs` or `eessi_sets`,
the subscript raises a `KeyError` that escapes the `except yaml.YAMLError`
clause, terminating with a traceback instead of the formatted error. -/
theorem parseYamlFile_error_behavior :
    ∀ (fn diag : String) (a : List String)
      (s : Option (List (String × List (String × Option Entry)))),
      parseYamlFile fn true (.error diag) =
        .formattedError ("YAML file could not be parsed.\n" ++ diag) ∧
      parseYamlFile fn true (.ok ⟨none, s⟩) = .uncaughtKeyError "eessi_archs" ∧
      parseYamlFile fn true (.ok ⟨some a, none⟩) = .uncaughtKeyError "eessi_sets" := by
  intro fn diag a s
  exact ⟨rfl, rfl, rfl⟩

/-- C6: with the output directory present, `main` performs exactly one write
per (set, architecture) pair, outer loop over sets and inner loop over
architectures in loader order; the file is named `<set_name>-<arch>` and
contains, in package declaration order, exactly the formatted atoms of the
packages the resolver accepts; in particular archs `[x86_64, aarch64]` with
one set `base` holding the unrestricted package `bar` yield the files
`base-x86_64` and `base-aarch64`, each containing exactly `"bar\n"`. -/
theorem mainRun_output_files :
    (∀ (archs : List String) (sets : List (String × SetDef)),
      (mainRun true archs sets).err = none ∧
      (mainRun true archs sets).writes =
        (sets.map fun s => archs.map fun a =>
          (s.1 ++ "-" ++ a,
           String.join (s.2.packages.filterMap fun p =>
             if isSupported p.2 a then some (makeAtom p.1 p.2) else none))).flatten) ∧
    (mainRun true ["x86_64", "aarch64"] [("base", ⟨[("bar", none)]⟩)]).writes =
      [("base-x86_64", "bar\n"), ("base-aarch64", "bar\n")] := by
  constructor
  · intro archs sets
    refine ⟨rfl, ?_⟩
    show setsLoop archs sets = _
    rw [setsLoop_eq_flatten]
    have hfun : (fun s : String × SetDef => archLoop s.1 s.2.packages archs) =
        fun s => archs.map fun a =>
          (s.1 ++ "-" ++ a,
           String.join (s.2.packages.filterMap fun p =>
             if isSupported p.2 a then some (makeAtom p.1 p.2) else none)) := by
      funext s
      rw [archLoop_eq_map]
      have harch : (fun a => (s.1 ++ "-" ++ a, setFileContents s.2.packages a)) =
          fun a =>
            (s.1 ++ "-" ++ a,
             String.join (s.2.packages.filterMap fun p =>
               if isSupported p.2 a then some (makeAtom p.1 p.2) else none)) := by
        funext a
        simp only [setFileContents, filter_map_eq_filterMap]
      rw [harch]
    rw [hfun]
  · rfl

/-- C7: when the output directory does not exist, `main` fails with the
directory-not-found error before the write loop, so no file write is
performed and any pre-existing file system is left unchanged. -/
theorem mainRun_missing_outdir :
    ∀ (archs : List String) (sets : List (String × SetDef)) (fs : FileSys),
      (mainRun false archs sets).err = some .outputDirNotFound ∧
      (mainRun false archs sets).writes = [] ∧
      applyWrites fs (mainRun false archs sets).writes = fs := by
  intro archs sets fs
  exact ⟨rfl, rfl, rfl⟩

/-- C8: each write truncates, so a written file ends with exactly the
written content whatever was there before, and re-running the generator on
the file system produced by a first run with the same inputs leaves every
file byte-identical (the writes of a run are a function of the parsed input
alone). -/
theorem mainRun_idempotent_overwrite :
    ∀ (archs : List String) (sets : List (String × SetDef)) (fs : FileSys)
      (w : String × String),
      applyWrite fs w w.1 = some w.2 ∧
      applyWrites (applyWrites fs (mainRun true archs sets).writes)
          (mainRun true archs sets).writes
        = applyWrites fs (mainRun true archs sets).writes := by
  intro archs sets fs w
  exact ⟨by simp [applyWrite], applyWrites_applyWrites _ _⟩

/-- C9: every (set, architecture) pair gets its output file written, and
when no package of the set is supported on that architecture the file is
written with empty content rather than skipped. -/
theorem mainRun_writes_empty_file :
    ∀ (archs : List String) (sets : List (String × SetDef)) (sn : String)
      (sd : SetDef) (a : String),
      (sn, sd) ∈ sets → a ∈ archs →
      (sn ++ "-" ++ a, setFileContents sd.packages a) ∈ (mainRun true archs sets).writes ∧
      ((∀ p ∈ sd.packages, isSupported p.2 a = false) →
        setFileContents sd.packages a = "") := by
  intro archs sets sn sd a hs ha
  constructor
  · show _ ∈ setsLoop archs sets
    rw [setsLoop_eq_flatten]
    rw [List.mem_flatten]
    refine ⟨archLoop sn sd.packages archs, List.mem_map_of_mem _ hs, ?_⟩
    rw [archLoop_eq_map]
    exact List.mem_map_of_mem _ ha
  · intro hnone
    have : sd.packages.filter (fun p => isSupported p.2 a) = [] := by
      simp only [List.filter_eq_nil_iff]
      intro p hp
      simp [hnone p hp]
    rw [setFileContents, this]
    rfl

/-- Witness for C9: one set `base` with one package whose `include_on` is
the empty list (supported nowhere) still produces the file `base-x86_64`,
with empty content. -/
theorem mainRun_writes_empty_file_witness :
    ("base", SetDef.mk [("pkg", some ⟨none, none, none, some []⟩)]) ∈
        [("base", SetDef.mk [("pkg", some ⟨none, none, none, some []⟩)])] ∧
    "x86_64" ∈ ["x86_64"] ∧
    ("base-x86_64", "") ∈
      (mainRun true ["x86_64"]
        [("base", ⟨[("pkg", some ⟨none, none, none, some []⟩)]⟩)]).writes := by
  refine ⟨by simp, by simp, ?_⟩
  exact (mainRun_writes_empty_file ["x86_64"]
    [("base", ⟨[("pkg", some ⟨none, none, none, some []⟩)]⟩)]
    "base" ⟨[("pkg", some ⟨none, none, none, some []⟩)]⟩ "x86_64"
    (by simp) (by simp)).1

/-- C10: `make_atom` stringifies the version scalar (`str(...)`), so a
non-string version such as the YAML float `1.2` still yields the pinned
atom `=<name>-<str(version)>`; the overlay value receives no such coercion:
a non-string overlay makes the `'::' +` concatenation raise a `TypeError`.
String-valued entries agree with `makeAtom`. -/
theorem makeAtomY_version_coercion :
    ∀ (name : String) (v : YVal) (n : Int) (r : String) (b : Bool),
      makeAtomY name (some ⟨some v, none⟩) = .ok ("=" ++ name ++ "-" ++ pyStr v ++ "\n") ∧
      makeAtomY name (some ⟨none, some (.vint n)⟩) =
        .error "TypeError: can only concatenate str" ∧
      makeAtomY name (some ⟨none, some (.vfloat r)⟩) =
        .error "TypeError: can only concatenate str" ∧
      makeAtomY name (some ⟨none, some (.vbool b)⟩) =
        .error "TypeError: can only concatenate str" ∧
      makeAtomY "foo" (some ⟨some (.vfloat "1.2"), none⟩) = .ok "=foo-1.2\n" ∧
      (∀ e : Entry,
        makeAtomY name (some ⟨e.version.map .vstr, e.overlay.map .vstr⟩) =
          .ok (makeAtom name (some e))) := by
  intro name v n r b
  refine ⟨rfl, rfl, rfl, rfl, rfl, ?_⟩
  intro e
  obtain ⟨ver, ov, eo, io⟩ := e
  cases ver <;> cases ov <;> rfl

end GenSetFiles
